import Mathlib

/-!
Verification of the filename-template engine, bitrate planner and batch
orchestrator of the Python-Bulk-Video-Converter repository.

The Python sources (src/core/file_manager.py, src/core/encoder.py,
src/core/prefix_manager.py) are shallowly embedded below.  Strings are
modelled as `List Char`, Python floats coming from ffprobe metadata as `ℚ`,
Python `int()` truncation as truncation toward zero on `ℚ`.  Filesystem and
backend effects (os.path.exists, ffprobe, ffmpeg invocations, wall-clock
timestamps) are supplied by explicit read-only environment parameters.
-/

/-- The character class of `re.sub(r'[\\/*?:"<>|]', '_', ...)` in
`FileManager.get_safe_filename` and of the `re.search` check in
`PrefixManager.validate_template` (src/core/file_manager.py line 48,
src/core/prefix_manager.py line 116). -/
def isIllegalChar (c : Char) : Bool :=
  c = '\\' || c = '/' || c = '*' || c = '?' || c = ':' || c = '"' ||
  c = '<' || c = '>' || c = '|'

/-- The characters removed by Python `str.strip('. ')` in
`get_safe_filename` (file_manager.py line 50). -/
def isStripChar (c : Char) : Bool :=
  c = '.' || c = ' '

/-- The whitespace stripped by Python `str.strip()` with no argument, used
by `validate_template`'s emptiness check (prefix_manager.py line 112): the
exact set of codepoints `c` with `chr(c).strip() == ''` in CPython —
U+0009-U+000D, U+001C-U+001F, space, U+0085, U+00A0, U+1680,
U+2000-U+200A, U+2028, U+2029, U+202F, U+205F and U+3000. -/
def isPyWhitespace (c : Char) : Bool :=
  (0x09 ≤ c.toNat && c.toNat ≤ 0x0d) ||
  (0x1c ≤ c.toNat && c.toNat ≤ 0x20) ||
  c.toNat = 0x85 || c.toNat = 0xa0 || c.toNat = 0x1680 ||
  (0x2000 ≤ c.toNat && c.toNat ≤ 0x200a) ||
  c.toNat = 0x2028 || c.toNat = 0x2029 || c.toNat = 0x202f ||
  c.toNat = 0x205f || c.toNat = 0x3000

/-- Python `s.strip(chars)`: remove the characters satisfying `p` from both
ends of the string. -/
def stripBoth (p : Char → Bool) (s : List Char) : List Char :=
  ((s.dropWhile p).reverse.dropWhile p).reverse

/-- The `re.sub(r'[\\/*?:"<>|]', '_', filename)` step of
`get_safe_filename`: every illegal character is replaced by an underscore. -/
def sanitizeChars (s : List Char) : List Char :=
  s.map (fun c => if isIllegalChar c then '_' else c)

/-- `FileManager.get_safe_filename` (file_manager.py lines 45-54):
replace illegal filename characters with `_`, strip leading/trailing dots
and spaces, and fall back to `'unnamed_file'` when the result is empty. -/
def get_safe_filename (s : List Char) : List Char :=
  let safe := stripBoth isStripChar (sanitizeChars s)
  if safe = [] then "unnamed_file".data else safe

-- Basic lemmas about `dropWhile` / `stripBoth` used by several claims.

theorem mem_dropWhile {p : Char → Bool} {l : List Char} {c : Char}
    (h : c ∈ l.dropWhile p) : c ∈ l := by
  induction l with
  | nil => simp at h
  | cons a t ih =>
    cases hp : p a with
    | true =>
      simp only [List.dropWhile_cons, hp, if_true] at h
      exact List.mem_cons_of_mem a (ih h)
    | false =>
      simp only [List.dropWhile_cons, hp, Bool.false_eq_true, if_false] at h
      exact h

theorem mem_stripBoth {p : Char → Bool} {l : List Char} {c : Char}
    (h : c ∈ stripBoth p l) : c ∈ l := by
  unfold stripBoth at h
  rw [List.mem_reverse] at h
  have h2 := mem_dropWhile h
  rw [List.mem_reverse] at h2
  exact mem_dropWhile h2

theorem head?_dropWhile {p : Char → Bool} {l : List Char} {c : Char}
    (h : (l.dropWhile p).head? = some c) : p c = false := by
  induction l with
  | nil => simp at h
  | cons a t ih =>
    cases hp : p a with
    | true =>
      simp only [List.dropWhile_cons, hp, if_true] at h
      exact ih h
    | false =>
      simp only [List.dropWhile_cons, hp, Bool.false_eq_true, if_false,
        List.head?_cons, Option.some.injEq] at h
      subst h
      exact hp

theorem dropWhile_eq_self_of_head {p : Char → Bool} {l : List Char}
    (h : ∀ c, l.head? = some c → p c = false) : l.dropWhile p = l := by
  cases l with
  | nil => rfl
  | cons a t =>
    have ha : p a = false := h a rfl
    simp [List.dropWhile_cons, ha]

theorem getLast?_stripBoth {p : Char → Bool} {l : List Char} {c : Char}
    (h : (stripBoth p l).getLast? = some c) : p c = false := by
  unfold stripBoth at h
  rw [List.getLast?_reverse] at h
  exact head?_dropWhile h

theorem head?_stripBoth {p : Char → Bool} {l : List Char} {c : Char}
    (h : (stripBoth p l).head? = some c) : p c = false := by
  unfold stripBoth at h
  rw [List.head?_reverse] at h
  -- `c` is the last element of `dropWhile p (reverse (dropWhile p l))`,
  -- which is a suffix of `reverse (dropWhile p l)`; its last element is the
  -- head of `dropWhile p l`, which does not satisfy `p`.
  set w := (l.dropWhile p).reverse with hw
  obtain ⟨a, ha⟩ : w.dropWhile p <:+ w := List.dropWhile_suffix p
  have hne : w.dropWhile p ≠ [] := by
    intro hnil
    rw [hnil] at h
    simp at h
  have hlast : w.getLast? = some c := by
    rw [← ha, List.getLast?_append_of_ne_nil a hne, h]
  rw [hw, List.getLast?_reverse] at hlast
  exact head?_dropWhile hlast

theorem stripBoth_eq_self {p : Char → Bool} {l : List Char}
    (hh : ∀ c, l.head? = some c → p c = false)
    (hl : ∀ c, l.getLast? = some c → p c = false) : stripBoth p l = l := by
  unfold stripBoth
  rw [dropWhile_eq_self_of_head hh]
  have : l.reverse.dropWhile p = l.reverse := by
    apply dropWhile_eq_self_of_head
    intro c hc
    rw [List.head?_reverse] at hc
    exact hl c hc
  rw [this, List.reverse_reverse]

theorem sanitizeChars_no_illegal {s : List Char} {c : Char}
    (h : c ∈ sanitizeChars s) : isIllegalChar c = false := by
  unfold sanitizeChars at h
  obtain ⟨a, _, ha⟩ := List.mem_map.mp h
  by_cases hi : isIllegalChar a = true
  · rw [hi, if_pos rfl] at ha
    subst ha
    decide
  · simp only [Bool.not_eq_true] at hi
    rw [hi] at ha
    simp only [Bool.false_eq_true, if_false] at ha
    subst ha
    exact hi

theorem sanitizeChars_eq_self {s : List Char}
    (h : ∀ c ∈ s, isIllegalChar c = false) : sanitizeChars s = s := by
  unfold sanitizeChars
  induction s with
  | nil => rfl
  | cons a t ih =>
    simp only [List.map_cons]
    have ha := h a (List.mem_cons_self a t)
    rw [ha]
    simp only [Bool.false_eq_true, if_false, List.cons.injEq, true_and]
    exact ih (fun c hc => h c (List.mem_cons_of_mem a hc))

/-- The safety contract of `get_safe_filename`: no illegal character,
nonempty, and no leading or trailing dot or space. -/
theorem get_safe_filename_spec (s : List Char) :
    (∀ c ∈ get_safe_filename s, isIllegalChar c = false) ∧
    get_safe_filename s ≠ [] ∧
    (∀ c, (get_safe_filename s).head? = some c → isStripChar c = false) ∧
    (∀ c, (get_safe_filename s).getLast? = some c → isStripChar c = false) := by
  unfold get_safe_filename
  by_cases he : stripBoth isStripChar (sanitizeChars s) = []
  · rw [he, if_pos rfl]
    refine ⟨?_, by decide, by decide, by decide⟩
    intro c hc
    fin_cases hc <;> decide
  · rw [if_neg he]
    refine ⟨?_, he, ?_, ?_⟩
    · intro c hc
      exact sanitizeChars_no_illegal (mem_stripBoth hc)
    · intro c hc
      exact head?_stripBoth hc
    · intro c hc
      exact getLast?_stripBoth hc

/-- C10 helper: `get_safe_filename` of the fallback name is itself. -/
theorem get_safe_filename_unnamed :
    get_safe_filename "unnamed_file".data = "unnamed_file".data := by
  decide

/-- C10: The filesystem-safety filter `get_safe_filename` is idempotent:
applying it twice gives the same result as applying it once. -/
theorem get_safe_filename_idempotent (s : List Char) :
    get_safe_filename (get_safe_filename s) = get_safe_filename s := by
  have hspec := get_safe_filename_spec s
  obtain ⟨hill, hne, hhead, hlast⟩ := hspec
  set r := get_safe_filename s with hr
  have hsan : sanitizeChars r = r := sanitizeChars_eq_self hill
  have hstrip : stripBoth isStripChar r = r :=
    stripBoth_eq_self hhead hlast
  unfold get_safe_filename
  rw [hsan, hstrip, if_neg hne]

-- ## Template substitution (`FileManager.apply_prefix_template`)

/-- `startsWith s pat`: `pat` is a prefix of `s` (used to model the
left-to-right scan of Python `str.replace`). -/
def startsWith : List Char → List Char → Bool
  | _, [] => true
  | [], _ :: _ => false
  | c :: s, p :: ps => c = p && startsWith s ps

/-- Fuel-indexed worker for `replaceAll`; the fuel is always at least the
length of the subject string, so the first branch is never taken. -/
def replaceAllAux (pat rep : List Char) : Nat → List Char → List Char
  | 0, s => s
  | _ + 1, [] => []
  | fuel + 1, c :: rest =>
    if !pat.isEmpty && startsWith (c :: rest) pat then
      rep ++ replaceAllAux pat rep fuel ((c :: rest).drop pat.length)
    else
      c :: replaceAllAux pat rep fuel rest

/-- Python `s.replace(pat, rep)`: replace every (left-to-right,
non-overlapping) occurrence of `pat` in `s` by `rep`; inserted replacement
text is not rescanned.  (Patterns used by the code are never empty.) -/
def replaceAll (pat rep s : List Char) : List Char :=
  replaceAllAux pat rep s.length s

theorem startsWith_refl (l : List Char) : startsWith l l = true := by
  induction l with
  | nil => rfl
  | cons a t ih => simp [startsWith, ih]

/-- Replacing a whole-string occurrence yields exactly the replacement. -/
theorem replaceAll_self {pat : List Char} (rep : List Char) (h : pat ≠ []) :
    replaceAll pat rep pat = rep := by
  unfold replaceAll
  cases pat with
  | nil => exact absurd rfl h
  | cons c rest =>
    simp only [List.length_cons, replaceAllAux, List.isEmpty_cons,
      Bool.not_false, startsWith_refl, Bool.and_true, Bool.and_self,
      if_true, Bool.true_and]
    have hdrop : List.drop (rest.length + 1) (c :: rest) = [] := by
      rw [List.drop_succ_cons, List.drop_length]
    rw [hdrop]
    cases hr : rest.length with
    | zero => simp [replaceAllAux]
    | succ n => simp [replaceAllAux]

/-- The per-file metadata strings produced by `FileManager.get_file_info`
(file_manager.py lines 56-109).  All of these are opaque environment data
(file stem, extension, wall-clock date/time strings, size, directory
names); the model receives them instead of reading the filesystem and the
clock. -/
structure StaticInfo where
  filename : List Char
  ext : List Char
  date : List Char
  timeStr : List Char
  datetimeStr : List Char
  create_date : List Char
  size : List Char
  source : List Char
  source_full : List Char
deriving DecidableEq

/-- The strings contributed by an available `video_info` dictionary in
`apply_prefix_template` (file_manager.py lines 147-153): `resolution` is
`f"{width}x{height}"` when both dimensions are present, `codec` the codec
name, `duration` is `str(round(duration, 1))`.  The numeral rendering is
opaque to every claim, so the already-formatted strings are the model's
inputs; a `none` field models an absent dictionary key. -/
structure VideoInfoStrings where
  resolution : Option (List Char)
  codec : Option (List Char)
  duration : Option (List Char)
deriving DecidableEq

/-- The ordered placeholder dictionary built by `apply_prefix_template`:
`get_file_info` (insertion order of the dict literal at file_manager.py
lines 90-106, or the default-info literal at lines 113-126 when the file
cannot be accessed — that one lacks the `source` keys and pins `size` to
`"0"`), then the `video_info` and `quality` updates, which overwrite
existing keys and so keep the insertion order. -/
def buildContext (acc : Bool) (counter : Nat) (i : StaticInfo)
    (vi : Option VideoInfoStrings) (quality : List Char) :
    List (List Char × List Char) :=
  let resolutionV := ((vi.bind (fun v => v.resolution)).getD [])
  let codecV := ((vi.bind (fun v => v.codec)).getD [])
  let durationV := ((vi.bind (fun v => v.duration)).getD [])
  if acc then
    [("filename".data, i.filename), ("ext".data, i.ext),
     ("date".data, i.date), ("time".data, i.timeStr),
     ("datetime".data, i.datetimeStr), ("create_date".data, i.create_date),
     ("size".data, i.size), ("counter".data, (Nat.repr counter).data),
     ("source".data, i.source), ("source_full".data, i.source_full),
     ("resolution".data, resolutionV), ("codec".data, codecV),
     ("duration".data, durationV), ("quality".data, quality)]
  else
    [("filename".data, i.filename), ("ext".data, i.ext),
     ("date".data, i.date), ("time".data, i.timeStr),
     ("datetime".data, i.datetimeStr), ("create_date".data, i.create_date),
     ("size".data, "0".data), ("counter".data, (Nat.repr counter).data),
     ("resolution".data, resolutionV), ("codec".data, codecV),
     ("duration".data, durationV), ("quality".data, quality)]

/-- The substitution loop of `apply_prefix_template` (file_manager.py
lines 159-161): `result = result.replace("{" + key + "}", value)` for each
context entry, in dictionary order. -/
def substTemplate (ctx : List (List Char × List Char)) (tmpl : List Char) :
    List Char :=
  ctx.foldl (fun acc kv => replaceAll ('{' :: (kv.1 ++ ['}'])) kv.2 acc) tmpl

/-- `FileManager.apply_prefix_template` (file_manager.py lines 128-171).
`counter` is the `FileManager` instance's counter field.  `raisesEx` models
an exception raised inside the `try` block before the `self.counter += 1`
line (e.g. a non-string template or a `video_info` value of the wrong
dynamic type); every statement that can raise there precedes the increment,
so the `except` fallback path returns the safety-filtered file stem and
leaves the counter unchanged.  `acc` is whether `get_file_info` could stat
the file (false selects its default-info dictionary). -/
def apply_prefix_template (counter : Nat) (raisesEx : Bool) (tmpl : List Char)
    (acc : Bool) (i : StaticInfo) (vi : Option VideoInfoStrings)
    (quality : List Char) : List Char × Nat :=
  if raisesEx then
    (get_safe_filename i.filename, counter)
  else
    (get_safe_filename (substTemplate (buildContext acc counter i vi quality) tmpl),
     counter + 1)

/-- A concrete metadata record used to instantiate theorems on concrete
inputs. -/
def demoInfo : StaticInfo :=
  { filename := "movie".data
    ext := "mp4".data
    date := "2024-01-01".data
    timeStr := "12-00-00".data
    datetimeStr := "2024-01-01_12-00-00".data
    create_date := "2024-01-01".data
    size := "1.5".data
    source := "videos".data
    source_full := "home_videos".data }

/-- C9: every string returned by `apply_prefix_template` — on the normal
path and on the exception-fallback path alike — contains none of the
characters `\ / * ? : " < > |`, is nonempty, and has no leading or trailing
dot or space, because both return paths end in `get_safe_filename`. -/
theorem apply_prefix_template_safe (counter : Nat) (raisesEx : Bool)
    (tmpl : List Char) (acc : Bool) (i : StaticInfo)
    (vi : Option VideoInfoStrings) (quality : List Char) :
    (∀ c ∈ (apply_prefix_template counter raisesEx tmpl acc i vi quality).1,
        isIllegalChar c = false) ∧
    (apply_prefix_template counter raisesEx tmpl acc i vi quality).1 ≠ [] ∧
    (∀ c, (apply_prefix_template counter raisesEx tmpl acc i vi quality).1.head?
        = some c → isStripChar c = false) ∧
    (∀ c, (apply_prefix_template counter raisesEx tmpl acc i vi quality).1.getLast?
        = some c → isStripChar c = false) := by
  unfold apply_prefix_template
  cases raisesEx with
  | true =>
    simp only [if_true]
    exact get_safe_filename_spec i.filename
  | false =>
    simp only [Bool.false_eq_true, if_false]
    exact get_safe_filename_spec
      (substTemplate (buildContext acc counter i vi quality) tmpl)

/-- C9 witness: the safety contract at a concrete resolution call. -/
theorem apply_prefix_template_safe_witness :
    (∀ c ∈ (apply_prefix_template 1 false "{filename}".data true demoInfo
        none "720p".data).1, isIllegalChar c = false) ∧
    (apply_prefix_template 1 false "{filename}".data true demoInfo
        none "720p".data).1 ≠ [] ∧
    (∀ c, (apply_prefix_template 1 false "{filename}".data true demoInfo
        none "720p".data).1.head? = some c → isStripChar c = false) ∧
    (∀ c, (apply_prefix_template 1 false "{filename}".data true demoInfo
        none "720p".data).1.getLast? = some c → isStripChar c = false) :=
  apply_prefix_template_safe 1 false "{filename}".data true demoInfo
    none "720p".data

/-- A file whose stem is the literal text `{quality}` — the stem placed
into the context as the `filename` value. -/
def braceStemInfo : StaticInfo :=
  { demoInfo with filename := "{quality}".data }

/-- A file whose stem is the literal text `{filename}`. -/
def selfStemInfo : StaticInfo :=
  { demoInfo with filename := "{filename}".data }

/-- C3 counterexample: resolving the template `{filename}` for a file whose
stem is the literal text `{quality}` with quality label `720p` yields
`720p`, not `{quality}` — the value injected by the `filename` substitution
IS re-expanded by the later `quality` substitution, contradicting the claim
that values are never re-expanded. -/
theorem template_reexpansion_counterexample :
    (apply_prefix_template 1 false "{filename}".data true braceStemInfo
        none "720p".data).1 = "720p".data ∧
    "720p".data ≠ "{quality}".data := by
  constructor
  · decide
  · decide

/-- C3 amended: substitution is sequential `str.replace` in the context
dictionary's insertion order, so an injected value IS re-expanded exactly by
the substitutions of placeholders that come later in that order: for every
quality label `q`, a stem containing the literal `{quality}` (the last key)
resolves to `get_safe_filename q`, while a stem containing the literal
`{filename}` (its own, first, key) is never re-expanded and survives
verbatim. -/
theorem template_substitution_order_amended (q : List Char) :
    (apply_prefix_template 1 false "{filename}".data true braceStemInfo
        none q).1 = get_safe_filename q ∧
    (apply_prefix_template 1 false "{filename}".data true selfStemInfo
        none q).1 = "{filename}".data := by
  constructor
  · show get_safe_filename (q ++ []) = get_safe_filename q
    rw [List.append_nil]
  · rfl

-- ## Batch conversion (`VideoEncoder.batch_convert`, encoder.py 382-456)

/-- One entry of the result list built by `batch_convert`: the dictionary
`{'input': ..., 'output': ..., 'success': ..., 'message': ...}`; `output` is
`none` when the key is absent (missing-input entries) or set to `None`
(failed conversions). -/
structure ConversionResult where
  input : List Char
  output : Option (List Char)
  success : Bool
  message : List Char
deriving DecidableEq

/-- The read-only environment a batch run observes, one field per external
effect of the loop body of `batch_convert`: `fileExists` is
`os.path.exists`, `sinfo`/`statOk` what `get_file_info` reads per input,
`vinfo` the `get_video_info` probe (`none` models the empty dict returned
on probe failure), `tmplRaises` whether template application takes its
exception path for this input, and `convertOk` the `(success, message)`
outcome of `convert_video` for an input/output pair. -/
structure BatchEnv where
  fileExists : List Char → Bool
  statOk : List Char → Bool
  sinfo : List Char → StaticInfo
  vinfo : List Char → Option VideoInfoStrings
  tmplRaises : List Char → Bool
  convertOk : List Char → List Char → Bool × List Char

/-- The output path `batch_convert` computes for one input:
`os.path.join(output_dir, f"{filename}.{output_format.lstrip('.')}")`,
where `filename` comes from `apply_prefix_template` on a freshly
constructed `FileManager` (whose counter is therefore 1).  No collision
check of any kind is performed here (encoder.py lines 411-434). -/
def outPathOf (env : BatchEnv) (outDir fmt tmpl quality input : List Char) :
    List Char :=
  outDir ++ '/' ::
    ((apply_prefix_template 1 (env.tmplRaises input) tmpl (env.statOk input)
        (env.sinfo input) (env.vinfo input) quality).1 ++
      '.' :: fmt.dropWhile (fun c => c = '.'))

/-- The loop body of `batch_convert` for one input (encoder.py lines
401-446): a missing input is recorded as a failed result and the loop
continues; otherwise the output path is computed and `convert_video` is
invoked, recording `output` only on success. -/
def batchStep (env : BatchEnv) (outDir quality fmt tmpl input : List Char) :
    ConversionResult :=
  if env.fileExists input = false then
    { input := input, output := none, success := false
      message := "Input file does not exist".data }
  else
    let op := outPathOf env outDir fmt tmpl quality input
    let r := env.convertOk input op
    { input := input, output := if r.1 then some op else none
      success := r.1, message := r.2 }

/-- `VideoEncoder.batch_convert` (encoder.py lines 382-456): iterate the
inputs in the given order, appending one `ConversionResult` per input to
the accumulated result list. -/
def batch_convert (env : BatchEnv) (inputs : List (List Char))
    (outDir quality fmt tmpl : List Char) : List ConversionResult :=
  inputs.foldl (fun results input =>
    results ++ [batchStep env outDir quality fmt tmpl input]) []

theorem batch_convert_foldl_acc (env : BatchEnv)
    (outDir quality fmt tmpl : List Char) (inputs : List (List Char))
    (acc : List ConversionResult) :
    inputs.foldl (fun results input =>
        results ++ [batchStep env outDir quality fmt tmpl input]) acc =
      acc ++ inputs.map (batchStep env outDir quality fmt tmpl) := by
  induction inputs generalizing acc with
  | nil => simp
  | cons x xs ih =>
    simp only [List.foldl_cons, List.map_cons]
    rw [ih]
    simp

/-- The result sequence is exactly the input list mapped through the
per-input step: the loop carries no cross-file state (each iteration
constructs a fresh `FileManager` and reads only the environment). -/
theorem batch_convert_eq_map (env : BatchEnv)
    (outDir quality fmt tmpl : List Char) (inputs : List (List Char)) :
    batch_convert env inputs outDir quality fmt tmpl =
      inputs.map (batchStep env outDir quality fmt tmpl) := by
  unfold batch_convert
  rw [batch_convert_foldl_acc]
  simp

/-- An environment in which every input exists, can be stat'ed, has the
demo metadata, and converts successfully. -/
def cenvAllOk : BatchEnv :=
  { fileExists := fun _ => true
    statOk := fun _ => true
    sinfo := fun _ => demoInfo
    vinfo := fun _ => none
    tmplRaises := fun _ => false
    convertOk := fun _ _ => (true, "converted".data) }

/-- C1 counterexample: (a) a single `apply_prefix_template` call that takes
the exception-fallback path leaves the counter at 1 instead of
incrementing it to 2, and (b) running `batch_convert` over two inputs with
the template `{counter}` resolves BOTH files with counter value 1 (output
`out/1.mp4` twice), because each iteration constructs a fresh
`FileManager`; no process-wide counter is shared across the files of a
run. -/
theorem counter_increment_counterexample :
    (apply_prefix_template 1 true "{filename}".data true demoInfo none
        "720p".data).2 = 1 ∧
    (apply_prefix_template 1 true "{filename}".data true demoInfo none
        "720p".data).2 ≠ 2 ∧
    (batch_convert cenvAllOk ["dir1/a.mp4".data, "dir2/b.mp4".data]
        "out".data "720p".data "mp4".data "{counter}".data).map
        (fun r => r.output)
      = [some "out/1.mp4".data, some "out/1.mp4".data] := by
  refine ⟨rfl, by decide, by decide⟩

/-- One call to the template engine: the arguments of one
`apply_prefix_template` invocation on a shared `FileManager`. -/
structure CallSpec where
  raisesEx : Bool
  tmpl : List Char
  acc : Bool
  info : StaticInfo
  vi : Option VideoInfoStrings
  quality : List Char

/-- Thread a single `FileManager` counter through a sequence of
`apply_prefix_template` calls, returning the final counter. -/
def runResolutions (c0 : Nat) (calls : List CallSpec) : Nat :=
  calls.foldl (fun c sp =>
    (apply_prefix_template c sp.raisesEx sp.tmpl sp.acc sp.info sp.vi
      sp.quality).2) c0

/-- C1 amended: on a single `FileManager`, a sequence of calls increments
the counter by exactly the number of calls that complete the substitution
path; calls that take the exception-fallback path do not increment it.
(`batch_convert` constructs a fresh `FileManager` per input, so no counter
is shared across the files of a run — see the counterexample.) -/
theorem counter_increment_amended (c0 : Nat) (calls : List CallSpec) :
    runResolutions c0 calls =
      c0 + (calls.filter (fun sp => !sp.raisesEx)).length := by
  induction calls generalizing c0 with
  | nil => simp [runResolutions]
  | cons sp t ih =>
    unfold runResolutions at ih ⊢
    simp only [List.foldl_cons]
    cases hr : sp.raisesEx with
    | true =>
      have hstep : (apply_prefix_template c0 true sp.tmpl sp.acc
          sp.info sp.vi sp.quality).2 = c0 := by
        simp [apply_prefix_template]
      rw [hstep, ih c0]
      simp [List.filter_cons, hr]
    | false =>
      have hstep : (apply_prefix_template c0 false sp.tmpl sp.acc
          sp.info sp.vi sp.quality).2 = c0 + 1 := by
        simp [apply_prefix_template]
      rw [hstep, ih (c0 + 1)]
      simp only [List.filter_cons, hr, Bool.not_false, if_true,
        List.length_cons]
      omega

/-- C2 counterexample: two existing inputs whose stems both
template-resolve to `movie` are given the SAME output path `out/movie.mp4`
by `batch_convert` — the second does not become `out/movie_1.mp4`; no
collision suffixing happens in the batch path, so the second conversion
overwrites the first (ffmpeg is invoked with `-y`). -/
theorem batch_collision_counterexample :
    (batch_convert cenvAllOk ["dir1/movie.mp4".data, "dir2/movie.mp4".data]
        "out".data "720p".data "mp4".data "{filename}".data).map
        (fun r => r.output)
      = [some "out/movie.mp4".data, some "out/movie.mp4".data] ∧
    some "out/movie.mp4".data ≠ some "out/movie_1.mp4".data := by
  exact ⟨by decide, by decide⟩

/-- C2 amended: `batch_convert` performs no collision resolution at all:
whenever two existing inputs template-resolve to the same filename and
both conversions succeed, both results carry the SAME output path (the
second overwriting the first on disk); the `_1`, `_2`, … suffixing exists
only in `FileManager.generate_output_path`, which `batch_convert` never
calls. -/
theorem batch_same_resolution_same_output (env : BatchEnv)
    (outDir quality fmt tmpl a b : List Char)
    (ha : env.fileExists a = true) (hb : env.fileExists b = true)
    (hname : (apply_prefix_template 1 (env.tmplRaises a) tmpl (env.statOk a)
          (env.sinfo a) (env.vinfo a) quality).1
        = (apply_prefix_template 1 (env.tmplRaises b) tmpl (env.statOk b)
          (env.sinfo b) (env.vinfo b) quality).1)
    (hca : (env.convertOk a (outPathOf env outDir fmt tmpl quality a)).1 = true)
    (hcb : (env.convertOk b (outPathOf env outDir fmt tmpl quality b)).1 = true) :
    ∃ p, (batch_convert env [a, b] outDir quality fmt tmpl).map
        (fun r => r.output) = [some p, some p] := by
  have hpath : outPathOf env outDir fmt tmpl quality b
      = outPathOf env outDir fmt tmpl quality a := by
    unfold outPathOf
    rw [hname]
  refine ⟨outPathOf env outDir fmt tmpl quality a, ?_⟩
  rw [batch_convert_eq_map]
  simp only [List.map_cons, List.map_nil]
  unfold batchStep
  rw [hpath] at hcb
  simp [ha, hb, hca, hcb, hpath]

/-- C2 amended witness: the shared-output-path conclusion at the concrete
colliding pair. -/
theorem batch_same_resolution_same_output_witness :
    ∃ p, (batch_convert cenvAllOk ["dir1/movie.mp4".data, "dir2/movie.mp4".data]
        "out".data "720p".data "mp4".data "{filename}".data).map
        (fun r => r.output) = [some p, some p] :=
  batch_same_resolution_same_output cenvAllOk "out".data "720p".data
    "mp4".data "{filename}".data "dir1/movie.mp4".data "dir2/movie.mp4".data
    (by decide) (by decide) (by decide) (by decide) (by decide)

/-- C4: `batch_convert` isolates per-file failures: for any inputs around a
missing file `x`, the result sequence has one entry per input in input
order, the entry for `x` is a failed result (`success = false`), and the
remaining entries are exactly the results of running the batch without
`x`. -/
theorem batch_convert_isolates_failures (env : BatchEnv)
    (outDir quality fmt tmpl : List Char) (pre post : List (List Char))
    (x : List Char) (hx : env.fileExists x = false) :
    (batch_convert env (pre ++ x :: post) outDir quality fmt tmpl).length
        = (pre ++ x :: post).length ∧
    batch_convert env (pre ++ x :: post) outDir quality fmt tmpl
        = batch_convert env pre outDir quality fmt tmpl ++
          ({ input := x, output := none, success := false,
             message := "Input file does not exist".data } : ConversionResult) ::
          batch_convert env post outDir quality fmt tmpl := by
  have hstep : batchStep env outDir quality fmt tmpl x =
      { input := x, output := none, success := false,
        message := "Input file does not exist".data } := by
    unfold batchStep
    rw [if_pos hx]
  constructor
  · rw [batch_convert_eq_map]
    simp
  · rw [batch_convert_eq_map, batch_convert_eq_map, batch_convert_eq_map]
    simp [hstep]

/-- An environment in which exactly the input `b.mp4` is missing. -/
def cenvMissing : BatchEnv :=
  { cenvAllOk with
    fileExists := fun p => if p = "b.mp4".data then false else true }

/-- C4 witness: a 3-input batch whose second input is missing — length 3,
failed middle entry, and the outer entries equal to the 1-input batches. -/
theorem batch_convert_isolates_failures_witness :
    cenvMissing.fileExists "b.mp4".data = false ∧
    (batch_convert cenvMissing ["a.mp4".data, "b.mp4".data, "c.mp4".data]
        "out".data "720p".data "mp4".data "{filename}".data).length = 3 ∧
    batch_convert cenvMissing ["a.mp4".data, "b.mp4".data, "c.mp4".data]
        "out".data "720p".data "mp4".data "{filename}".data
      = batch_convert cenvMissing ["a.mp4".data] "out".data "720p".data
          "mp4".data "{filename}".data ++
        ({ input := "b.mp4".data, output := none, success := false,
           message := "Input file does not exist".data } : ConversionResult) ::
        batch_convert cenvMissing ["c.mp4".data] "out".data "720p".data
          "mp4".data "{filename}".data := by
  have h := batch_convert_isolates_failures cenvMissing "out".data
    "720p".data "mp4".data "{filename}".data ["a.mp4".data] ["c.mp4".data]
    "b.mp4".data (by decide)
  exact ⟨by decide, h.1, h.2⟩

-- ## Bitrate planner and fps selection (`VideoEncoder`, encoder.py)

/-- Python `int()` applied to a number: truncation toward zero. -/
def pyInt (x : ℚ) : ℤ :=
  if 0 ≤ x then ⌊x⌋ else ⌈x⌉

/-- The bitrate computation of `VideoEncoder._encode_with_target_size`
(encoder.py lines 255-259):
`target_size_bits = target_size_mb * 8 * 1024 * 1024 * 0.95` and
`video_bitrate = int(target_size_bits / duration - 128 * 1024)`.
Arithmetic is modelled exactly over `ℚ` (0.95 = 19/20). -/
def plannedVideoBitrate (durationSeconds : ℚ) (targetSizeMB : ℤ) : ℤ :=
  pyInt ((targetSizeMB : ℚ) * 8 * 1024 * 1024 * (19 / 20) / durationSeconds
    - 128 * 1024)

/-- `VideoEncoder._encode_with_target_size` (encoder.py lines 240-380):
duration and bitrate guards, then pass 1 and pass 2.  `pass1`/`pass2` model
the ffmpeg backend invocations (`none` = success, `some err` = an
`ffmpeg.Error` whose decoded stderr is `err`); the returned second
component records which passes were invoked, in order.  All failures are
returned as `(False, message)` tuples, never raised. -/
def encode_with_target_size (durationSeconds : ℚ) (targetSizeMB : ℤ)
    (outputPath : List Char) (pass1 pass2 : Option (List Char)) :
    (Bool × List Char) × List Nat :=
  if durationSeconds ≤ 0 then
    ((false, "Could not determine video duration".data), [])
  else if plannedVideoBitrate durationSeconds targetSizeMB ≤ 0 then
    ((false, "Target size too small for this video duration".data), [])
  else
    match pass1 with
    | some err => ((false, "First pass encoding error: ".data ++ err), [1])
    | none =>
      match pass2 with
      | some err =>
        ((false, "Second pass encoding error: ".data ++ err), [1, 2])
      | none =>
        ((true, "Successfully converted video to ".data ++ outputPath ++
          " with target size ".data ++ (Int.repr targetSizeMB).data ++
          "MB".data), [1, 2])

/-- C5: whenever the duration is positive and the computed bitrate is
positive, the planned two-pass video bitrate equals
`floor(targetSizeMB * 8 * 1024 * 1024 * 0.95 / duration) - 128 * 1024`
(the `int()` truncation coincides with the floor there). -/
theorem two_pass_bitrate_formula (d : ℚ) (s : ℤ) (_hd : 0 < d)
    (hpos : 0 < plannedVideoBitrate d s) :
    plannedVideoBitrate d s =
      ⌊(s : ℚ) * 8 * 1024 * 1024 * (19 / 20) / d⌋ - 128 * 1024 := by
  unfold plannedVideoBitrate pyInt at *
  set y : ℚ := (s : ℚ) * 8 * 1024 * 1024 * (19 / 20) / d - 128 * 1024 with hy
  by_cases h0 : 0 ≤ y
  · rw [if_pos h0] at *
    have : ((128 * 1024 : ℤ) : ℚ) = (128 * 1024 : ℚ) := by norm_num
    rw [hy, ← this, Int.floor_sub_int]
  · rw [if_neg h0] at hpos ⊢
    exfalso
    have hceil : (0 : ℚ) < y := Int.ceil_pos.mp hpos
    exact h0 (le_of_lt hceil)

/-- C5 witness: duration 120 s, target 10 MB — the bitrate is the claimed
floor expression and is a positive integer (533026 bps). -/
theorem two_pass_bitrate_formula_witness :
    (0 : ℚ) < 120 ∧ 0 < plannedVideoBitrate 120 10 ∧
    plannedVideoBitrate 120 10 =
      ⌊(10 : ℚ) * 8 * 1024 * 1024 * (19 / 20) / 120⌋ - 128 * 1024 ∧
    plannedVideoBitrate 120 10 = 533026 := by
  have h1 : (0 : ℚ) < 120 := by norm_num
  have h2 : plannedVideoBitrate 120 10 = 533026 := by
    unfold plannedVideoBitrate pyInt
    rw [if_pos (by norm_num)]
    rw [show ((10 : ℤ) : ℚ) * 8 * 1024 * 1024 * (19 / 20) / 120 - 128 * 1024
        = 7995392 / 15 by norm_num]
    rw [show ⌊(7995392 / 15 : ℚ)⌋ = 533026 by
      rw [Int.floor_eq_iff]
      norm_num]
  have h3 : 0 < plannedVideoBitrate 120 10 := by rw [h2]; norm_num
  exact ⟨h1, h3, two_pass_bitrate_formula 120 10 h1 h3, h2⟩

/-- C6: the two-pass encoder fails with the invalid-duration message when
`duration <= 0` and with the target-too-small message when the computed
video bitrate is `<= 0`, running no pass in either case; a pass-1 backend
failure is reported as a failed result and pass 2 is never run.  All three
outcomes are returned as `(False, message)` results (the model is a total
function — nothing is raised). -/
theorem two_pass_error_paths (d : ℚ) (s : ℤ) (outputPath : List Char)
    (pass1 pass2 : Option (List Char)) :
    (d ≤ 0 →
      encode_with_target_size d s outputPath pass1 pass2 =
        ((false, "Could not determine video duration".data), [])) ∧
    (0 < d → plannedVideoBitrate d s ≤ 0 →
      encode_with_target_size d s outputPath pass1 pass2 =
        ((false, "Target size too small for this video duration".data), [])) ∧
    (∀ err, 0 < d → 0 < plannedVideoBitrate d s → pass1 = some err →
      encode_with_target_size d s outputPath pass1 pass2 =
        ((false, "First pass encoding error: ".data ++ err), [1])) := by
  refine ⟨?_, ?_, ?_⟩
  · intro hd
    unfold encode_with_target_size
    rw [if_pos hd]
  · intro hd hbr
    unfold encode_with_target_size
    rw [if_neg (not_le.mpr hd), if_pos hbr]
  · intro err hd hbr hp1
    unfold encode_with_target_size
    rw [if_neg (not_le.mpr hd), if_neg (not_le.mpr hbr), hp1]

/-- C6 witness: the three failure paths at concrete inputs — zero duration;
duration 600 s with a 1 MB target (bitrate would be negative); and a pass-1
backend error at 120 s / 10 MB. -/
theorem two_pass_error_paths_witness :
    ((0 : ℚ) ≤ 0 ∧
      encode_with_target_size 0 10 "o.mp4".data none none =
        ((false, "Could not determine video duration".data), [])) ∧
    ((0 : ℚ) < 600 ∧ plannedVideoBitrate 600 1 ≤ 0 ∧
      encode_with_target_size 600 1 "o.mp4".data none none =
        ((false, "Target size too small for this video duration".data), [])) ∧
    ((0 : ℚ) < 120 ∧ 0 < plannedVideoBitrate 120 10 ∧
      encode_with_target_size 120 10 "o.mp4".data
          (some "boom".data) none =
        ((false, "First pass encoding error: ".data ++ "boom".data), [1])) := by
  have hd600 : (0 : ℚ) < 600 := by norm_num
  have hbr600 : plannedVideoBitrate 600 1 ≤ 0 := by
    unfold plannedVideoBitrate pyInt
    rw [show ((1 : ℤ) : ℚ) * 8 * 1024 * 1024 * (19 / 20) / 600 - 128 * 1024
        = -(44171264 / 375) by norm_num]
    rw [if_neg (by norm_num)]
    rw [Int.ceil_neg]
    rw [show ⌊(44171264 / 375 : ℚ)⌋ = 117790 by
      rw [Int.floor_eq_iff]
      norm_num]
    norm_num
  have hd120 : (0 : ℚ) < 120 := by norm_num
  have hbr120 : 0 < plannedVideoBitrate 120 10 := by
    unfold plannedVideoBitrate pyInt
    rw [if_pos (by norm_num)]
    rw [show ((10 : ℤ) : ℚ) * 8 * 1024 * 1024 * (19 / 20) / 120 - 128 * 1024
        = 7995392 / 15 by norm_num]
    rw [show ⌊(7995392 / 15 : ℚ)⌋ = 533026 by
      rw [Int.floor_eq_iff]
      norm_num]
    norm_num
  refine ⟨⟨le_refl 0, ?_⟩, ⟨hd600, hbr600, ?_⟩, ⟨hd120, hbr120, ?_⟩⟩
  · exact (two_pass_error_paths 0 10 "o.mp4".data none none).1 (le_refl 0)
  · exact (two_pass_error_paths 600 1 "o.mp4".data none none).2.1 hd600 hbr600
  · exact (two_pass_error_paths 120 10 "o.mp4".data
      (some "boom".data) none).2.2 "boom".data hd120 hbr120 rfl

/-- `VideoEncoder._get_optimal_fps` (encoder.py lines 224-238) given the
probed source fps (`info.get('fps', 0)`; 0 when the probe failed or the
frame rate was unparsable): keep it in `[20, 60]`, cap above 60 at 60,
otherwise default to 30. -/
def get_optimal_fps (fps : ℚ) : ℚ :=
  if 20 ≤ fps ∧ fps ≤ 60 then fps
  else if 60 < fps then 60
  else 30

/-- C7: output frame-rate selection — the source fps is kept on `[20, 60]`,
capped to 60 above 60, and defaulted to 30 when unknown (0) or below 20. -/
theorem optimal_fps_selection (f : ℚ) :
    (20 ≤ f → f ≤ 60 → get_optimal_fps f = f) ∧
    (60 < f → get_optimal_fps f = 60) ∧
    (f < 20 → get_optimal_fps f = 30) := by
  refine ⟨?_, ?_, ?_⟩
  · intro h1 h2
    unfold get_optimal_fps
    rw [if_pos ⟨h1, h2⟩]
  · intro h
    unfold get_optimal_fps
    rw [if_neg (fun hc => absurd h (not_lt.mpr hc.2)), if_pos h]
  · intro h
    unfold get_optimal_fps
    rw [if_neg (fun hc => absurd hc.1 (not_le.mpr h)),
      if_neg (not_lt.mpr (le_of_lt (lt_trans h (by norm_num))))]

/-- C7 witness: source fps 15 → 30, 45 → 45, 90 → 60, unknown (0) → 30. -/
theorem optimal_fps_selection_witness :
    get_optimal_fps 15 = 30 ∧ get_optimal_fps 45 = 45 ∧
    get_optimal_fps 90 = 60 ∧ get_optimal_fps 0 = 30 :=
  ⟨(optimal_fps_selection 15).2.2 (by norm_num),
   (optimal_fps_selection 45).1 (by norm_num) (by norm_num),
   (optimal_fps_selection 90).2.1 (by norm_num),
   (optimal_fps_selection 0).2.2 (by norm_num)⟩

-- ## Template validation (`PrefixManager.validate_template`)

/-- The keys of `FileManager.PREFIX_PLACEHOLDERS` (file_manager.py lines
24-39), in source order. -/
def placeholderKeys : List (List Char) :=
  ["{filename}".data, "{ext}".data, "{date}".data, "{time}".data,
   "{datetime}".data, "{create_date}".data, "{size}".data,
   "{resolution}".data, "{codec}".data, "{duration}".data,
   "{counter}".data, "{quality}".data, "{source}".data,
   "{source_full}".data]

/-- The characters removed by `p.strip('{}')`. -/
def isBraceChar (c : Char) : Bool :=
  c = '{' || c = '}'

/-- `[p.strip('{}') for p in self.file_manager.get_available_placeholders().keys()]`
(prefix_manager.py line 122): the recognized placeholder names. -/
def validPlaceholderNames : List (List Char) :=
  placeholderKeys.map (stripBoth isBraceChar)

/-- The scan of `re.findall(r'\{([^\}]+)\}', template)`, returning both the
matched groups (the tokens) and the characters outside all matches.  At a
`{`, the regex engine commits to the nonempty run of non-`}` characters up
to the next `}`; if there is no `}` ahead no further match is possible; if
the `}` is immediate the match at this `{` fails and scanning resumes after
it.  Braces delimiting a match belong to the match, hence neither to the
token nor to the outside characters.  The fuel argument (always at least
the length of the subject) makes the jump past a match structural. -/
def scanPlaceholders : Nat → List Char → List (List Char) × List Char
  | 0, s => ([], s)
  | _ + 1, [] => ([], [])
  | fuel + 1, c :: rest =>
    if c = '{' then
      match rest.dropWhile (fun d => !(d = '}')) with
      | [] => ([], c :: rest)
      | _ :: rest2 =>
        if rest.takeWhile (fun d => !(d = '}')) = [] then
          let pr := scanPlaceholders fuel rest
          (pr.1, c :: pr.2)
        else
          let pr := scanPlaceholders fuel rest2
          (rest.takeWhile (fun d => !(d = '}')) :: pr.1, pr.2)
    else
      let pr := scanPlaceholders fuel rest
      (pr.1, c :: pr.2)

/-- The `{...}` tokens of a template, per the regex above. -/
def findTokens (t : List Char) : List (List Char) :=
  (scanPlaceholders t.length t).1

/-- The characters of a template outside all placeholder matches. -/
def outsideChars (t : List Char) : List Char :=
  (scanPlaceholders t.length t).2

/-- `PrefixManager.validate_template` (prefix_manager.py lines 101-131):
false when the template is empty or whitespace-only, false when
`re.search(r'[\\/*?:"<>|]', template)` finds an illegal character anywhere,
false when some extracted `{token}` is not a recognized placeholder name,
true otherwise. -/
def validate_template (t : List Char) : Bool :=
  if stripBoth isPyWhitespace t = [] then false
  else if t.any isIllegalChar then false
  else (findTokens t).all (fun tok => decide (tok ∈ validPlaceholderNames))

/-- Decomposition of the illegal-character search along the scanner: an
illegal character of the template is either inside some token or outside
all matches (the brace delimiters themselves are never illegal). -/
theorem scan_any_illegal (fuel : Nat) (s : List Char) (h : s.length ≤ fuel) :
    s.any isIllegalChar =
      ((scanPlaceholders fuel s).1.any (fun tok => tok.any isIllegalChar)
        || (scanPlaceholders fuel s).2.any isIllegalChar) := by
  induction fuel generalizing s with
  | zero =>
    have : s = [] := List.length_eq_zero.mp (Nat.le_zero.mp h)
    subst this
    simp [scanPlaceholders]
  | succ fuel ih =>
    cases s with
    | nil => simp [scanPlaceholders]
    | cons c rest =>
      have hlen : rest.length ≤ fuel := by
        simpa using Nat.succ_le_succ_iff.mp (by simpa using h)
      by_cases hc : c = '{'
      · subst hc
        cases hdw : rest.dropWhile (fun d => !(d = '}')) with
        | nil =>
          have hscan : scanPlaceholders (fuel + 1) ('{' :: rest) =
              ([], '{' :: rest) := by
            simp [scanPlaceholders, hdw]
          rw [hscan]
          simp only [List.any_cons, List.any_nil]
          rw [show isIllegalChar '{' = false from rfl]
          simp
        | cons d rest2 =>
          have hd : d = '}' := by
            have := head?_dropWhile (p := fun d => !(d = '}'))
              (l := rest) (c := d) (by rw [hdw]; rfl)
            simpa using this
          subst hd
          have hsplit : rest =
              rest.takeWhile (fun d => !(d = '}')) ++ '}' :: rest2 := by
            conv_lhs => rw [← List.takeWhile_append_dropWhile
              (p := fun d => !(d = '}')) (l := rest)]
            rw [hdw]
          by_cases htok : rest.takeWhile (fun d => !(d = '}')) = []
          · have hscan : scanPlaceholders (fuel + 1) ('{' :: rest) =
                ((scanPlaceholders fuel rest).1,
                  '{' :: (scanPlaceholders fuel rest).2) := by
              simp [scanPlaceholders, hdw, htok]
            rw [hscan]
            simp only [List.any_cons]
            rw [show isIllegalChar '{' = false from rfl]
            rw [ih rest hlen]
            simp
          · have hscan : scanPlaceholders (fuel + 1) ('{' :: rest) =
                (rest.takeWhile (fun d => !(d = '}')) ::
                    (scanPlaceholders fuel rest2).1,
                  (scanPlaceholders fuel rest2).2) := by
              simp [scanPlaceholders, hdw, htok]
            have hlen2 : rest2.length ≤ fuel := by
              have hsum : rest.length =
                  (rest.takeWhile (fun d => !(d = '}'))).length
                    + (rest2.length + 1) := by
                conv_lhs => rw [hsplit]
                simp
              omega
            rw [hscan]
            simp only [List.any_cons]
            rw [show isIllegalChar '{' = false from rfl]
            conv_lhs => rw [hsplit]
            rw [List.any_append]
            simp only [List.any_cons]
            rw [show isIllegalChar '}' = false from rfl]
            rw [ih rest2 hlen2]
            simp only [Bool.false_or, Bool.or_assoc]
      · have hscan : scanPlaceholders (fuel + 1) (c :: rest) =
            ((scanPlaceholders fuel rest).1,
              c :: (scanPlaceholders fuel rest).2) := by
          simp [scanPlaceholders, hc]
        rw [hscan]
        simp only [List.any_cons]
        rw [ih rest hlen]
        cases hi : isIllegalChar c <;> simp

/-- The recognized placeholder names contain no illegal filename
character. -/
theorem validPlaceholderNames_no_illegal :
    ∀ tok ∈ validPlaceholderNames, ∀ c ∈ tok, isIllegalChar c = false := by
  decide

/-- C8: `validate_template` returns true exactly for the templates that are
not whitespace-only, have no illegal filename character outside placeholder
braces, and whose `{...}` tokens all name recognized placeholders; it is a
pure function of its argument (a Lean function — no side effects).  The
code searches for illegal characters anywhere, but a recognized token never
contains one, so the two readings agree. -/
theorem validate_template_characterization (t : List Char) :
    validate_template t = true ↔
      (stripBoth isPyWhitespace t ≠ [] ∧
       (∀ c ∈ outsideChars t, isIllegalChar c = false) ∧
       (∀ tok ∈ findTokens t, tok ∈ validPlaceholderNames)) := by
  have hdecomp : t.any isIllegalChar =
      ((findTokens t).any (fun tok => tok.any isIllegalChar)
        || (outsideChars t).any isIllegalChar) :=
    scan_any_illegal t.length t (le_refl _)
  unfold validate_template
  by_cases hws : stripBoth isPyWhitespace t = []
  · simp [hws]
  · rw [if_neg hws]
    constructor
    · intro hv
      by_cases hill : t.any isIllegalChar = true
      · rw [if_pos hill] at hv
        cases hv
      · have hill' : t.any isIllegalChar = false := by
          rw [← Bool.not_eq_true]
          exact hill
        rw [if_neg hill] at hv
        have htoks : ∀ tok ∈ findTokens t, tok ∈ validPlaceholderNames := by
          intro tok htk
          exact of_decide_eq_true (List.all_eq_true.mp hv tok htk)
        refine ⟨hws, ?_, htoks⟩
        intro c hcout
        rw [hill'] at hdecomp
        have hout : (outsideChars t).any isIllegalChar = false :=
          (Bool.or_eq_false_iff.mp hdecomp.symm).2
        have := List.any_eq_false.mp hout c hcout
        rw [← Bool.not_eq_true]
        exact this
    · rintro ⟨-, hout, htoks⟩
      have h1 : (findTokens t).any (fun tok => tok.any isIllegalChar)
          = false := by
        rw [List.any_eq_false]
        intro tok htk
        have hni := validPlaceholderNames_no_illegal tok (htoks tok htk)
        rw [Bool.not_eq_true, List.any_eq_false]
        intro c hc
        rw [Bool.not_eq_true]
        exact hni c hc
      have h2 : (outsideChars t).any isIllegalChar = false := by
        rw [List.any_eq_false]
        intro c hc
        rw [Bool.not_eq_true]
        exact hout c hc
      have hill : t.any isIllegalChar = false := by
        rw [hdecomp, h1, h2]
        rfl
      rw [if_neg (by rw [hill]; exact Bool.false_ne_true)]
      rw [List.all_eq_true]
      intro tok htk
      exact decide_eq_true (htoks tok htk)
